import Mathlib

/-!
Shallow embedding of the SOC-Python-Tools log analyzer: the detection module
(`log_analyzer/core/detection.py`), its configuration
(`log_analyzer/core/config.py`) and the watch-mode module
(`log_analyzer/core/watch.py`).

Modelling conventions:
* Python `dict`s (insertion ordered) are association lists `List (String × α)`;
  `defaultdict(int)` increments are `incr`.
* Timestamps (`datetime`) are `Int` seconds; `timedelta` arithmetic and the
  float divisions of the DDoS rate are carried out in `ℚ` (exact rationals).
* The CPython regular-expression engine, `strptime`, and the `ipaddress`
  module are external libraries; their per-line results are supplied as an
  oracle (`Env.extract`, `Env.is_whitelisted`, `Env.is_internal_ip`).  The
  control flow of `parse_log_file` over those results is modelled exactly.
* File bytes are modelled as `List Char`; `stat().st_size`, `seek` and
  `readlines` become `List.length`, `List.drop` and a split on newline.
-/

namespace SOC

/-- One threat finding, `(kind, detail)`, as appended to `data['threats']`. -/
abbrev Finding := String × String

/-! ### config.py -/

/-- `THREAT_CONFIG[kind]['score_weight']` from `config.py` (lines 10–36). -/
def score_weight : String → Nat
  | "BRUTE_FORCE" => 15
  | "PORT_SCAN" => 10
  | "SUSPICIOUS_UA" => 20
  | "SQL_INJECTION" => 30
  | "DDoS" => 40
  | _ => 0

/-- `STATUS_SCORES.get(code, 0)` from `config.py` (lines 40–45). -/
def STATUS_SCORES : String → Nat
  | "403" => 3
  | "401" => 2
  | "404" => 1
  | "400" => 1
  | _ => 0

/-- `THREAT_CONFIG['BRUTE_FORCE']['status_codes']`. -/
def BRUTE_FORCE_status_codes : List String := ["401", "403"]

/-- `THREAT_CONFIG['BRUTE_FORCE']['paths']`. -/
def BRUTE_FORCE_paths : List String := ["/login", "/wp-login.php", "/admin"]

/-- `THREAT_CONFIG['BRUTE_FORCE']['threshold']`. -/
def BRUTE_FORCE_threshold : Nat := 10

/-- `THREAT_CONFIG['PORT_SCAN']['status_codes']`. -/
def PORT_SCAN_status_codes : List String := ["404", "400"]

/-- `THREAT_CONFIG['PORT_SCAN']['request_threshold']`. -/
def PORT_SCAN_request_threshold : Nat := 50

/-- `THREAT_CONFIG['PORT_SCAN']['unique_paths_threshold']`. -/
def PORT_SCAN_unique_paths_threshold : Nat := 20

/-- `THREAT_CONFIG['DDoS']['request_threshold']`. -/
def DDoS_request_threshold : Nat := 500

/-! ### Association-list primitives (Python dict operations) -/

/-- Dict lookup: `d.get(key)` / `key in d`. -/
def lookupIP {α : Type} : List (String × α) → String → Option α
  | [], _ => none
  | (k, v) :: rest, key => if k = key then some v else lookupIP rest key

/-- Overwrite the value stored at an existing key, keeping its position
(the in-place mutation `d[key] = v` for a present key; dict keys are unique,
so replacing the first occurrence is exact). -/
def updateKey {α : Type} : List (String × α) → String → α → List (String × α)
  | [], _, _ => []
  | (k, w) :: rest, key, v =>
      if k = key then (key, v) :: rest else (k, w) :: updateKey rest key v

/-- `d[key] = v`: replace in place when present, append otherwise. -/
def upsert {α : Type} : List (String × α) → String → α → List (String × α)
  | [], key, v => [(key, v)]
  | (k, w) :: rest, key, v =>
      if k = key then (k, v) :: rest else (k, w) :: upsert rest key v

/-- `defaultdict(int)` increment: `d[key] += 1`. -/
def incr : List (String × Nat) → String → List (String × Nat)
  | [], key => [(key, 1)]
  | (k, v) :: rest, key =>
      if k = key then (k, v + 1) :: rest else (k, v) :: incr rest key

/-- Sum of the values of a counter dict. -/
def sumVals (l : List (String × Nat)) : Nat := (l.map Prod.snd).sum

/-! ### Data model -/

/-- The per-address activity value of `ip_activity` in `parse_log_file`
(`detection.py` lines 31–38). -/
structure ActivityRecord where
  count : Nat
  status_codes : List (String × Nat)
  requests : List (String × Nat)
  first_seen : Option Int
  last_seen : Option Int
  user_agents : List String
deriving DecidableEq

/-- The `defaultdict` initial value (`detection.py` lines 31–38). -/
def emptyRecord : ActivityRecord :=
  { count := 0, status_codes := [], requests := [],
    first_seen := none, last_seen := none, user_agents := [] }

/-- A suspicious entry as stored in `suspicious_ips` / `all_suspicious`:
the activity dict after `data['threats']` and `data['threat_score']`
have been set (`detection.py` lines 92–94). -/
structure ScoredRecord extends ActivityRecord where
  threats : List Finding
  threat_score : Nat
deriving DecidableEq

/-- The components a surviving log line contributes
(`detection.py` lines 48–66). -/
structure LogEntry where
  ip : String
  date : Int
  status : String
  request : String
deriving DecidableEq

/-- Oracle record for one stripped line: the results of the four `re.search`
calls (patterns `^(\S+)`, `\[([^\]]+)\]`, `" (\d{3}) `, `"(\S+) (\S+)`) and of
`datetime.strptime` on the bracketed date fragment, `none` encoding
no-match / `ValueError`. -/
structure LineParse where
  ip_match : Option String
  date_match : Option String
  status_match : Option String
  request_match : Option (String × String)
  parsed_date : Option Int

/-- External collaborators of `parse_log_file`: the regex/strptime extraction
(per stripped line) and the `utils.py` address predicates
`is_whitelisted` / `is_internal_ip` (backed by the `ipaddress` library). -/
structure Env where
  extract : String → LineParse
  is_whitelisted : String → Bool
  is_internal_ip : String → Bool

/-! ### Per-line control flow of parse_log_file (detection.py lines 40–83) -/

/-- Which extraction step raised inside the `try` block. -/
inductive ParseFail
  | noIP
  | noDate
  | noStatus
  | badTime
deriving DecidableEq

/-- Models the `str(e)` text interpolated into the parse warning.  The exact
Python exception message is environment/input dependent; only its presence in
the warning matters to the properties proved here. -/
def errString : ParseFail → String
  | ParseFail.badTime => "ValueError"
  | _ => "AttributeError"

/-- The warning printed by the `except` branch (`detection.py` line 82):
`f"Line {line_num}: Parsing error - {str(e)} - {line[:50]}..."`. -/
def mkWarning (line_num : Nat) (err : String) (line : String) : String :=
  "Line " ++ toString line_num ++ ": Parsing error - " ++ err ++ " - "
    ++ line.take 50 ++ "..."

/-- Python `str.strip()`: remove leading and trailing whitespace. -/
def strip (s : String) : String :=
  String.mk ((s.data.dropWhile Char.isWhitespace).reverse.dropWhile
    Char.isWhitespace).reverse

/-- Disposition of one raw line inside the read loop. -/
inductive LineOutcome
  | emptySkip
  | whitelistSkip
  | internalSkip
  | requestSkip
  | failSkip (e : ParseFail)
  | ok (entry : LogEntry)
deriving DecidableEq

/-- One iteration of the `for line_num, line in enumerate(f, 1)` loop body of
`parse_log_file` (`detection.py` lines 41–83), up to the record update:
strip, skip empty, extract the IP, apply the whitelist then the internal
filter, extract date/status/request (an `AttributeError` from a failed
`.group` is caught and warned about, a failed `request_match` is skipped
silently at lines 61–62), and parse the timestamp (`ValueError` warned). -/
def processLine (env : Env) (ignore_internal ignore_whitelisted : Bool)
    (rawLine : String) : LineOutcome :=
  let line := strip rawLine
  if line = "" then LineOutcome.emptySkip
  else
    let p := env.extract line
    match p.ip_match with
    | none => LineOutcome.failSkip ParseFail.noIP
    | some ip =>
      if ignore_whitelisted && env.is_whitelisted ip then
        LineOutcome.whitelistSkip
      else if ignore_internal && env.is_internal_ip ip then
        LineOutcome.internalSkip
      else
        match p.date_match with
        | none => LineOutcome.failSkip ParseFail.noDate
        | some _ =>
          match p.status_match with
          | none => LineOutcome.failSkip ParseFail.noStatus
          | some status =>
            match p.request_match with
            | none => LineOutcome.requestSkip
            | some (method, path) =>
              match p.parsed_date with
              | none => LineOutcome.failSkip ParseFail.badTime
              | some d =>
                LineOutcome.ok
                  { ip := ip, date := d, status := status,
                    request := method ++ " " ++ path }

/-- The record update for a surviving line (`detection.py` lines 69–78). -/
def updateRecord (r : ActivityRecord) (e : LogEntry) : ActivityRecord :=
  { count := r.count + 1,
    status_codes := incr r.status_codes e.status,
    requests := incr r.requests e.request,
    first_seen :=
      some (match r.first_seen with
            | none => e.date
            | some f => if e.date < f then e.date else f),
    last_seen :=
      some (match r.last_seen with
            | none => e.date
            | some l => if l < e.date then e.date else l),
    user_agents := r.user_agents }

/-- Accumulated state of the read loop: the `ip_activity` dict plus the
warnings printed so far. -/
structure ParseState where
  activity : List (String × ActivityRecord)
  warnings : List String
deriving DecidableEq

/-- Effect of one loop iteration on the accumulated state. -/
def stepLine (env : Env) (ignore_internal ignore_whitelisted : Bool)
    (st : ParseState) (line_num : Nat) (rawLine : String) : ParseState :=
  match processLine env ignore_internal ignore_whitelisted rawLine with
  | LineOutcome.ok e =>
      { st with
        activity :=
          upsert st.activity e.ip
            (updateRecord ((lookupIP st.activity e.ip).getD emptyRecord) e) }
  | LineOutcome.failSkip f =>
      { st with
        warnings :=
          st.warnings ++ [mkWarning line_num (errString f) (strip rawLine)] }
  | _ => st

/-- The whole read loop, numbering lines from 1 as `enumerate(f, 1)` does. -/
def parseLines (env : Env) (ignore_internal ignore_whitelisted : Bool) :
    ParseState → Nat → List String → ParseState
  | st, _, [] => st
  | st, n, l :: rest =>
      parseLines env ignore_internal ignore_whitelisted
        (stepLine env ignore_internal ignore_whitelisted st n l) (n + 1) rest

/-- `ip_activity` and the warnings after reading all lines of the file. -/
def aggregate (env : Env) (ignore_internal ignore_whitelisted : Bool)
    (lines : List String) : ParseState :=
  parseLines env ignore_internal ignore_whitelisted
    { activity := [], warnings := [] } 1 lines

/-! ### Threat classification and scoring (detection.py lines 98–181) -/

/-- Case analysis for substring search: does `needle` occur contiguously in
`hay`?  (Python's `in` on strings, and `re.search` of a literal pattern.) -/
def startsWithL : List Char → List Char → Bool
  | [], _ => true
  | _ :: _, [] => false
  | c :: cs, h :: hs => c = h && startsWithL cs hs

/-- `needle in hay` for character lists. -/
def containsSub : List Char → List Char → Bool
  | [], needle => needle.isEmpty
  | h :: t, needle => startsWithL needle (h :: t) || containsSub t needle

/-- Python `path in req` substring test on strings. -/
def containsStr (hay needle : String) : Bool :=
  containsSub hay.toList needle.toList

/-- The suffix of `hay` strictly after the first occurrence of `needle`
(`[]` when `needle` does not occur). -/
def afterFirst : List Char → List Char → List Char
  | [], _ => []
  | h :: t, needle =>
      if startsWithL needle (h :: t) then (h :: t).drop needle.length
      else afterFirst t needle

/-- `detect_specific_threats` (`detection.py` lines 98–126): the brute-force
pass (targeted path present and enough auth-failure statuses) then the
port-scan pass (enough probe statuses or enough distinct request keys). -/
def detect_specific_threats (d : ActivityRecord) : List Finding :=
  let brutePathHit :=
    d.requests.any (fun req =>
      BRUTE_FORCE_paths.any (fun path => containsStr req.1 path))
  let auth_failures :=
    (BRUTE_FORCE_status_codes.map
      (fun c => (lookupIP d.status_codes c).getD 0)).sum
  let threats1 : List Finding :=
    if brutePathHit && decide (auth_failures ≥ BRUTE_FORCE_threshold) then
      [("BRUTE_FORCE", toString auth_failures ++ " auth failures")]
    else []
  let scan_attempts :=
    (PORT_SCAN_status_codes.map
      (fun c => (lookupIP d.status_codes c).getD 0)).sum
  let unique_paths := d.requests.length
  if decide (scan_attempts ≥ PORT_SCAN_request_threshold)
      || decide (unique_paths ≥ PORT_SCAN_unique_paths_threshold) then
    threats1 ++
      [("PORT_SCAN",
        toString scan_attempts ++ " errors, " ++ toString unique_paths
          ++ " unique paths")]
  else threats1

/-- Case-insensitive match of one of the four configured SQL patterns
(`UNION.*SELECT`, `SELECT.*FROM`, `1=1`, `DROP TABLE`) against a request
string.  Request keys (`"METHOD PATH"` built from `\S+` tokens) contain no
newline, so `.*` is ordinary-contiguity: a pattern `A.*B` matches exactly
when `B` occurs after some occurrence of `A`, which happens exactly when `B`
occurs after the first occurrence of `A`. -/
def sqlPatternHit (s : String) : Bool :=
  let u := s.toList.map Char.toUpper
  containsSub (afterFirst u ("UNION".toList)) ("SELECT".toList)
    || containsSub (afterFirst u ("SELECT".toList)) ("FROM".toList)
    || containsSub u ("1=1".toList)
    || containsSub u ("DROP TABLE".toList)

/-- `detect_sql_injection` (`detection.py` lines 128–135), applied to the
request keys. -/
def detect_sql_injection (requests_list : List String) : Bool :=
  requests_list.any sqlPatternHit

/-- Span `last_seen - first_seen` in seconds.  Both bounds are set by every
record update; the `getD 0` is never reached on records the pipeline builds. -/
def spanSeconds (d : ActivityRecord) : Int :=
  d.last_seen.getD 0 - d.first_seen.getD 0

/-- `detect_ddos` (`detection.py` lines 137–153).  Equal bounds short-circuit
to `False`; otherwise the rate `count / span_seconds * 60` is compared
strictly against the configured threshold. -/
def detect_ddos (d : ActivityRecord) (time_window_minutes : Nat) : Bool :=
  if d.first_seen = d.last_seen then false
  else
    let window_seconds : ℚ := (time_window_minutes : ℚ) * 60
    if window_seconds = 0 then false
    else
      decide ((d.count : ℚ) / ((spanSeconds d : Int) : ℚ) * 60
        > (DDoS_request_threshold : ℚ))

/-- `calculate_threat_score` (`detection.py` lines 155–181).  The mutation of
`data['threats']` is rendered by returning the updated findings next to the
score.  The guard `'requests' in data` of line 168 always holds in this model
because the field is always present. -/
def calculate_threat_score (d : ActivityRecord)
    (threats0 : Option (List Finding)) : Nat × Option (List Finding) :=
  let score1 := ((threats0.getD []).map (fun t => score_weight t.1)).sum
  let score2 := score1 + (d.status_codes.map (fun p => STATUS_SCORES p.1 * p.2)).sum
  let sql := detect_sql_injection (d.requests.map Prod.fst)
  let score3 := if sql then score2 + score_weight "SQL_INJECTION" else score2
  let threats1 :=
    if sql then
      some ((threats0.getD []) ++ [("SQL_INJECTION", "SQL pattern detected")])
    else threats0
  let ddos := detect_ddos d 1
  let score4 := if ddos then score3 + score_weight "DDoS" else score3
  let threats2 :=
    if ddos then
      some ((threats1.getD []) ++ [("DDoS", toString d.count ++ " req/min")])
    else threats1
  (min score4 100, threats2)

/-- Lines 92–94 of `detection.py` for one suspicious record:
`data['threats'] = detect_specific_threats(data)` then
`data['threat_score'] = calculate_threat_score(data)` (which itself may
append to `data['threats']`). -/
def scoreRecord (d : ActivityRecord) : ScoredRecord :=
  let threats0 := detect_specific_threats d
  let res := calculate_threat_score d (some threats0)
  { toActivityRecord := d, threats := res.2.getD [], threat_score := res.1 }

/-- The threat-detection phase of `parse_log_file`
(`detection.py` lines 86–96): keep a record exactly when
`duration <= timedelta(hours=time_window_hours)` and `count > threshold`. -/
def detectPhase (activity : List (String × ActivityRecord)) (threshold : Nat)
    (time_window_hours : ℚ) : List (String × ScoredRecord) :=
  activity.filterMap (fun p =>
    if decide (((spanSeconds p.2 : Int) : ℚ) ≤ time_window_hours * 3600)
        && decide (p.2.count > threshold) then
      some (p.1, scoreRecord p.2)
    else none)

/-- `parse_log_file` over the file's lines: the suspicious map it returns,
paired with the warnings it printed. -/
def parse_log_file (env : Env) (threshold : Nat) (time_window_hours : ℚ)
    (ignore_internal ignore_whitelisted : Bool) (lines : List String) :
    List (String × ScoredRecord) × List String :=
  let st := aggregate env ignore_internal ignore_whitelisted lines
  (detectPhase st.activity threshold time_window_hours, st.warnings)

/-! ### Watch mode (watch.py) -/

/-- Analysis parameters stored in the handler's `config` dict that the model
needs (`watch.py` lines 88–95). -/
structure WatchConfig where
  threshold : Nat
  time_window : ℚ
  ignore_internal : Bool
  ignore_whitelisted : Bool

/-- The mutable state of `LogFileHandler`: the read offset `last_position`
and the cumulative session map `all_suspicious`
(`watch.py` lines 33 and 35). -/
structure WatchState where
  last_position : Nat
  all_suspicious : List (String × ScoredRecord)
deriving DecidableEq

/-- `LogFileHandler.__init__` (`watch.py` lines 23–36):
`self.all_suspicious = {}` and `self.last_position = 0`. -/
def initWatchState : WatchState :=
  { last_position := 0, all_suspicious := [] }

/-- Merge one incoming record into an existing session entry
(`watch.py` lines 118–129): sum the counts, take the maximum score, and
append only those incoming findings whose kind is not already present
(membership is tested against the kinds existing before the loop). -/
def mergeEntry (existing data : ScoredRecord) : ScoredRecord :=
  let existing_threats := existing.threats.map Prod.fst
  { existing with
    count := existing.count + data.count,
    threat_score := max existing.threat_score data.threat_score,
    threats :=
      existing.threats ++
        data.threats.filter (fun t => decide (t.1 ∉ existing_threats)) }

/-- One iteration of the `for ip, data in new_suspicious.items()` loop of
`_update_suspicious_ips` (`watch.py` lines 116–131). -/
def mergeStep (acc : List (String × ScoredRecord))
    (p : String × ScoredRecord) : List (String × ScoredRecord) :=
  match lookupIP acc p.1 with
  | some existing => updateKey acc p.1 (mergeEntry existing p.2)
  | none => acc ++ [p]

/-- `LogFileHandler._update_suspicious_ips` (`watch.py` lines 108–131). -/
def update_suspicious_ips (all_suspicious new_suspicious :
    List (String × ScoredRecord)) : List (String × ScoredRecord) :=
  new_suspicious.foldl mergeStep all_suspicious

/-- Split file content on newlines; `readlines` followed by the per-line
`strip` of the parser makes the treatment of line terminators immaterial. -/
def splitLinesAux : List Char → List (List Char)
  | [] => [[]]
  | c :: rest =>
      match splitLinesAux rest with
      | [] => [[c]]
      | l :: ls => if c = '\n' then [] :: l :: ls else (c :: l) :: ls

/-- The lines `f.readlines()` yields for the given content. -/
def splitLines (content : List Char) : List String :=
  (splitLinesAux content).map (fun l => String.mk l)

/-- `LogFileHandler._analyze_new_lines` (`watch.py` lines 73–106): run
`parse_log_file` on exactly the new lines, and merge into `all_suspicious`
when anything suspicious was found. -/
def analyze_new_lines (env : Env) (cfg : WatchConfig) (st : WatchState)
    (lines : List String) : WatchState :=
  let suspicious :=
    (parse_log_file env cfg.threshold cfg.time_window cfg.ignore_internal
      cfg.ignore_whitelisted lines).1
  if suspicious.isEmpty then st
  else
    { st with
      all_suspicious := update_suspicious_ips st.all_suspicious suspicious }

/-- Everything one call of `_process_changes` did, next to the new state:
whether the rotation warning was printed, the offset the read started at
(`none` when nothing was read), and the lines handed to the analyzer. -/
structure TickResult where
  state : WatchState
  rotation_warning : Bool
  read_from : Option Nat
  lines_read : List String

/-- `LogFileHandler._process_changes` (`watch.py` lines 46–71) on a file whose
current content is `content`: `current_size` is the stat size; an offset past
the end means rotation (warn, reset to 0); growth beyond the offset seeks
there, reads the remainder, advances `last_position` to the end of file, and
analyzes the new lines when there are any. -/
def process_changes (env : Env) (cfg : WatchConfig) (st : WatchState)
    (content : List Char) : TickResult :=
  let current_size := content.length
  let rotated := decide (current_size < st.last_position)
  let pos := if current_size < st.last_position then 0 else st.last_position
  if current_size > pos then
    let new_lines := splitLines (content.drop pos)
    let st1 : WatchState := { st with last_position := current_size }
    let st2 :=
      if new_lines.isEmpty then st1 else analyze_new_lines env cfg st1 new_lines
    { state := st2, rotation_warning := rotated, read_from := some pos,
      lines_read := new_lines }
  else
    { state := { st with last_position := pos }, rotation_warning := rotated,
      read_from := none, lines_read := [] }

/-! ### Derived quantities used to state the scoring claim -/

/-- Sum of the configured weights of the distinct finding kinds present. -/
def kindWeightSum (threats : List Finding) : Nat :=
  (((threats.map Prod.fst).dedup).map score_weight).sum

/-- Sum over the status-code histogram of `perStatusSeverity(code) *
occurrences`. -/
def statusSeveritySum (d : ActivityRecord) : Nat :=
  (d.status_codes.map (fun p => STATUS_SCORES p.1 * p.2)).sum

/-- The spec's ActivityRecord invariant (§3), as a predicate: the count
matches both histograms and the time bounds are ordered (or both unset, as in
the `defaultdict` initial value, which no line has touched yet). -/
def recordWF (r : ActivityRecord) : Prop :=
  r.count = sumVals r.status_codes ∧
  r.count = sumVals r.requests ∧
  ((r.first_seen = none ∧ r.last_seen = none) ∨
    ∃ f l, r.first_seen = some f ∧ r.last_seen = some l ∧ f ≤ l)

/-! ### Concrete instances used by witnesses and counterexamples -/

/-- An environment whose extraction parses every line as one address token
with a fixed timestamp, status and request (a minimal well-formed log). -/
def envOK : Env :=
  { extract := fun s =>
      { ip_match := some s, date_match := some "01/Jan/2024:00:00:00 +0000",
        status_match := some "404", request_match := some ("GET", "/a"),
        parsed_date := some 0 },
    is_whitelisted := fun _ => false,
    is_internal_ip := fun _ => false }

/-- An environment in which the bracketed-date extraction fails on every line
while the address `203.0.113.7` is whitelisted. -/
def envC8 : Env :=
  { extract := fun _ =>
      { ip_match := some "203.0.113.7", date_match := none,
        status_match := none, request_match := none, parsed_date := none },
    is_whitelisted := fun ip => decide (ip = "203.0.113.7"),
    is_internal_ip := fun _ => false }

/-- A watch configuration with the CLI defaults. -/
def cfgW : WatchConfig :=
  { threshold := 100, time_window := 1, ignore_internal := false,
    ignore_whitelisted := true }

/-- A session entry from an earlier batch: score 30, one finding. -/
def c1old : ScoredRecord :=
  { count := 120, status_codes := [("401", 120)],
    requests := [("GET /login", 120)], first_seen := some 0,
    last_seen := some 60, user_agents := [],
    threats := [("BRUTE_FORCE", "120 auth failures")], threat_score := 30 }

/-- An incoming batch entry for the same address: score 55, one repeated and
one new finding kind. -/
def c1new : ScoredRecord :=
  { count := 150, status_codes := [("401", 90), ("404", 60)],
    requests := [("GET /login", 150)], first_seen := some 100,
    last_seen := some 160, user_agents := [],
    threats := [("BRUTE_FORCE", "90 auth failures"),
                ("PORT_SCAN", "60 errors, 1 unique paths")],
    threat_score := 55 }

/-- A self-consistent session entry (count 2 = sum of both histograms). -/
def c2rec : ScoredRecord :=
  { count := 2, status_codes := [("404", 2)], requests := [("GET /a", 2)],
    first_seen := some 0, last_seen := some 10, user_agents := [],
    threats := [], threat_score := 10 }

/-- A record whose only request matches the `1=1` SQL pattern and whose time
bounds coincide (so the DDoS rule cannot fire). -/
def c6sql : ActivityRecord :=
  { count := 1, status_codes := [], requests := [("GET /?id=1=1", 1)],
    first_seen := some 0, last_seen := some 0, user_agents := [] }

/-- A record triggering neither the SQL-injection nor the DDoS rule. -/
def c6plain : ActivityRecord :=
  { count := 1, status_codes := [("200", 1)], requests := [("GET /index", 1)],
    first_seen := some 0, last_seen := some 0, user_agents := [] }

/-- 1000 requests across one minute: rate 1000/min, above the threshold. -/
def c7fast : ActivityRecord :=
  { count := 1000, status_codes := [("200", 1000)],
    requests := [("GET /", 1000)], first_seen := some 0,
    last_seen := some 60, user_agents := [] }

/-! ### Association-list lemmas -/

theorem lookupIP_eq_none {α : Type} (l : List (String × α)) (k : String) :
    lookupIP l k = none ↔ k ∉ l.map Prod.fst := by
  induction l with
  | nil => simp [lookupIP]
  | cons p rest ih =>
    by_cases h : p.1 = k
    · simp [lookupIP, h]
    · simp [lookupIP, h, ih, Ne.symm h]

theorem lookupIP_updateKey_self {α : Type} (l : List (String × α))
    (k : String) (v : α) (w : α) (h : lookupIP l k = some w) :
    lookupIP (updateKey l k v) k = some v := by
  induction l with
  | nil => simp [lookupIP] at h
  | cons p rest ih =>
    obtain ⟨pk, pv⟩ := p
    by_cases hp : pk = k
    · simp [lookupIP, updateKey, hp]
    · simp only [lookupIP, if_neg hp] at h
      simp [lookupIP, updateKey, hp, ih h]

theorem lookupIP_updateKey_ne {α : Type} (l : List (String × α))
    (k k' : String) (v : α) (h : k' ≠ k) :
    lookupIP (updateKey l k v) k' = lookupIP l k' := by
  induction l with
  | nil => simp [updateKey]
  | cons p rest ih =>
    obtain ⟨pk, pv⟩ := p
    by_cases hp : pk = k
    · simp [lookupIP, updateKey, hp, Ne.symm h]
    · by_cases hp' : pk = k'
      · simp [lookupIP, updateKey, hp, hp', h]
      · simp [lookupIP, updateKey, hp, hp', ih]

theorem lookupIP_append_single {α : Type} (l : List (String × α))
    (p : String × α) (k : String) :
    lookupIP (l ++ [p]) k =
      match lookupIP l k with
      | some v => some v
      | none => if p.1 = k then some p.2 else none := by
  induction l with
  | nil => simp [lookupIP]
  | cons q rest ih =>
    obtain ⟨qk, qv⟩ := q
    by_cases hq : qk = k
    · simp [lookupIP, hq]
    · simpa [lookupIP, hq] using ih

theorem lookupIP_upsert_self {α : Type} (l : List (String × α))
    (k : String) (v : α) : lookupIP (upsert l k v) k = some v := by
  induction l with
  | nil => simp [upsert, lookupIP]
  | cons p rest ih =>
    obtain ⟨pk, pv⟩ := p
    by_cases hp : pk = k
    · simp [upsert, lookupIP, hp]
    · simp [upsert, lookupIP, hp, ih]

theorem lookupIP_upsert_ne {α : Type} (l : List (String × α))
    (k k' : String) (v : α) (h : k' ≠ k) :
    lookupIP (upsert l k v) k' = lookupIP l k' := by
  induction l with
  | nil => simp [upsert, lookupIP, Ne.symm h]
  | cons p rest ih =>
    obtain ⟨pk, pv⟩ := p
    by_cases hp : pk = k
    · simp [upsert, lookupIP, hp, Ne.symm h]
    · by_cases hp' : pk = k'
      · simp [upsert, lookupIP, hp, hp', h]
      · simp [upsert, lookupIP, hp, hp', ih]

/-- Every value of `upsert l k v` is `v` or was already a value of `l`. -/
theorem lookupIP_upsert_cases {α : Type} (l : List (String × α))
    (k : String) (v : α) (k' : String) (w : α)
    (h : lookupIP (upsert l k v) k' = some w) :
    w = v ∨ lookupIP l k' = some w := by
  by_cases hk : k' = k
  · subst hk
    rw [lookupIP_upsert_self] at h
    exact Or.inl (Option.some.inj h).symm
  · rw [lookupIP_upsert_ne l k k' v hk] at h
    exact Or.inr h

/-! ### Merge characterization -/

theorem lookupIP_mergeStep_ne (acc : List (String × ScoredRecord))
    (p : String × ScoredRecord) (k : String) (h : k ≠ p.1) :
    lookupIP (mergeStep acc p) k = lookupIP acc k := by
  unfold mergeStep
  cases hl : lookupIP acc p.1 with
  | some e => exact lookupIP_updateKey_ne acc p.1 k (mergeEntry e p.2) h
  | none =>
    rw [lookupIP_append_single]
    cases hk : lookupIP acc k with
    | some v => rfl
    | none => simp [Ne.symm h]

theorem lookupIP_mergeStep_self (acc : List (String × ScoredRecord))
    (p : String × ScoredRecord) :
    lookupIP (mergeStep acc p) p.1 =
      match lookupIP acc p.1 with
      | some e => some (mergeEntry e p.2)
      | none => some p.2 := by
  unfold mergeStep
  cases hl : lookupIP acc p.1 with
  | some e => exact lookupIP_updateKey_self acc p.1 (mergeEntry e p.2) e hl
  | none => rw [lookupIP_append_single, hl]; simp

/-- Complete characterization of `_update_suspicious_ips` at every key, for a
batch with distinct addresses (as `parse_log_file`'s dict always yields). -/
theorem lookupIP_update_suspicious_ips
    (new_suspicious : List (String × ScoredRecord)) :
    ∀ all_suspicious ip, (new_suspicious.map Prod.fst).Nodup →
      lookupIP (update_suspicious_ips all_suspicious new_suspicious) ip =
        match lookupIP new_suspicious ip with
        | some d =>
            match lookupIP all_suspicious ip with
            | some e => some (mergeEntry e d)
            | none => some d
        | none => lookupIP all_suspicious ip := by
  induction new_suspicious with
  | nil => intro all ip _; simp [update_suspicious_ips, lookupIP]
  | cons p rest ih =>
    intro all ip hnd
    obtain ⟨pk, pv⟩ := p
    rw [List.map_cons, List.nodup_cons] at hnd
    obtain ⟨hpn, hrest⟩ := hnd
    have hfold : update_suspicious_ips all ((pk, pv) :: rest)
        = update_suspicious_ips (mergeStep all (pk, pv)) rest := rfl
    rw [hfold, ih (mergeStep all (pk, pv)) ip hrest]
    by_cases hk : ip = pk
    · subst hk
      have hnone : lookupIP rest ip = none := by
        rw [lookupIP_eq_none]; exact hpn
      have hself : lookupIP (mergeStep all (ip, pv)) ip
          = match lookupIP all ip with
            | some e => some (mergeEntry e pv)
            | none => some pv := lookupIP_mergeStep_self all (ip, pv)
      rw [hnone, hself]
      cases hl : lookupIP all ip <;> simp [lookupIP, hl]
    · have hcons : lookupIP ((pk, pv) :: rest) ip = lookupIP rest ip := by
        simp only [lookupIP, if_neg (fun h : pk = ip => hk h.symm)]
      rw [hcons, lookupIP_mergeStep_ne all (pk, pv) ip hk]

/-- A kind occurs among the merged findings exactly when it occurs among the
existing or the incoming ones. -/
theorem mergeEntry_kinds (e d : ScoredRecord) (k : String) :
    k ∈ (mergeEntry e d).threats.map Prod.fst ↔
      k ∈ e.threats.map Prod.fst ∨ k ∈ d.threats.map Prod.fst := by
  constructor
  · intro h
    simp only [mergeEntry, List.map_append, List.mem_append] at h
    rcases h with h | h
    · exact Or.inl h
    · simp only [List.mem_map, List.mem_filter] at h
      obtain ⟨t, ⟨ht, _⟩, rfl⟩ := h
      exact Or.inr (List.mem_map.mpr ⟨t, ht, rfl⟩)
  · intro h
    simp only [mergeEntry, List.map_append, List.mem_append]
    by_cases hk : k ∈ e.threats.map Prod.fst
    · exact Or.inl hk
    · rcases h with h | h
      · exact absurd h hk
      · right
        obtain ⟨t, ht, rfl⟩ := List.mem_map.mp h
        refine List.mem_map.mpr ⟨t, List.mem_filter.mpr ⟨ht, ?_⟩, rfl⟩
        simpa using hk

/-- Merging never produces two findings of the same kind when neither side
had a duplicated kind. -/
theorem mergeEntry_kinds_nodup (e d : ScoredRecord)
    (he : (e.threats.map Prod.fst).Nodup)
    (hd : (d.threats.map Prod.fst).Nodup) :
    ((mergeEntry e d).threats.map Prod.fst).Nodup := by
  simp only [mergeEntry, List.map_append]
  rw [List.nodup_append]
  refine ⟨he, ?_, ?_⟩
  · exact List.Nodup.sublist
      (List.Sublist.map Prod.fst (List.filter_sublist d.threats)) hd
  · intro a ha hb
    simp only [List.mem_map, List.mem_filter] at hb
    obtain ⟨t, ⟨_, hnot⟩, rfl⟩ := hb
    simp only [decide_eq_true_eq] at hnot
    exact hnot (by simpa using ha)

/-- **C1.** When a batch is merged into the watch-mode session: for an address
already present the session entry's `count` becomes the sum of the old and
new counts, its `threat_score` becomes the maximum of the old and new scores,
and the merged findings carry a kind exactly when the old or the new findings
did, without duplicating any kind; an address not yet present is inserted
verbatim.  (A dict, hence the incoming batch, has distinct keys.) -/
theorem C1_merge_semantics
    (all_suspicious new_suspicious : List (String × ScoredRecord))
    (ip : String) (hkeys : (new_suspicious.map Prod.fst).Nodup) :
    (∀ e d, lookupIP all_suspicious ip = some e →
      lookupIP new_suspicious ip = some d →
      ∃ m, lookupIP (update_suspicious_ips all_suspicious new_suspicious) ip
          = some m ∧
        m.count = e.count + d.count ∧
        m.threat_score = max e.threat_score d.threat_score ∧
        (∀ k, k ∈ m.threats.map Prod.fst ↔
          k ∈ e.threats.map Prod.fst ∨ k ∈ d.threats.map Prod.fst) ∧
        ((e.threats.map Prod.fst).Nodup → (d.threats.map Prod.fst).Nodup →
          (m.threats.map Prod.fst).Nodup)) ∧
    (∀ d, lookupIP all_suspicious ip = none →
      lookupIP new_suspicious ip = some d →
      lookupIP (update_suspicious_ips all_suspicious new_suspicious) ip
        = some d) := by
  constructor
  · intro e d he hd
    refine ⟨mergeEntry e d, ?_, ?_, ?_, mergeEntry_kinds e d,
      mergeEntry_kinds_nodup e d⟩
    · rw [lookupIP_update_suspicious_ips new_suspicious all_suspicious ip
        hkeys, hd, he]
    · simp [mergeEntry]
    · simp [mergeEntry]
  · intro d he hd
    rw [lookupIP_update_suspicious_ips new_suspicious all_suspicious ip
      hkeys, hd, he]

/-- Witness for C1: merging the same address twice with scores 30 and 55
yields score 55 and count `120 + 150`, and the repeated `BRUTE_FORCE` kind is
not duplicated while the new `PORT_SCAN` kind is added. -/
theorem C1_merge_semantics_witness :
    ∃ m, lookupIP (update_suspicious_ips [("198.51.100.9", c1old)]
        [("198.51.100.9", c1new)]) "198.51.100.9" = some m ∧
      m.count = 270 ∧ m.threat_score = 55 ∧
      (∀ k, k ∈ m.threats.map Prod.fst ↔
        k ∈ c1old.threats.map Prod.fst ∨ k ∈ c1new.threats.map Prod.fst) ∧
      (m.threats.map Prod.fst).Nodup := by
  obtain ⟨m, hm, hc, hs, hk, hn⟩ :=
    (C1_merge_semantics [("198.51.100.9", c1old)] [("198.51.100.9", c1new)]
      "198.51.100.9" (by decide)).1 c1old c1new (by decide) (by decide)
  exact ⟨m, hm, by rw [hc]; decide, by rw [hs]; decide, hk,
    hn (by decide) (by decide)⟩

/-- **C10.** Merging into an existing session entry changes only `count`,
`threat_score` and the findings: the histograms, the time bounds and the
user-agent set keep exactly their pre-merge values. -/
theorem C10_merge_frame
    (all_suspicious new_suspicious : List (String × ScoredRecord))
    (ip : String) (e d : ScoredRecord)
    (hkeys : (new_suspicious.map Prod.fst).Nodup)
    (he : lookupIP all_suspicious ip = some e)
    (hd : lookupIP new_suspicious ip = some d) :
    ∃ m, lookupIP (update_suspicious_ips all_suspicious new_suspicious) ip
        = some m ∧
      m.status_codes = e.status_codes ∧
      m.requests = e.requests ∧
      m.first_seen = e.first_seen ∧
      m.last_seen = e.last_seen ∧
      m.user_agents = e.user_agents := by
  refine ⟨mergeEntry e d, ?_, ?_, ?_, ?_, ?_, ?_⟩ <;>
    first
    | rw [lookupIP_update_suspicious_ips new_suspicious all_suspicious ip
        hkeys, hd, he]
    | simp [mergeEntry]

/-- Witness for C10 at a concrete session and batch. -/
theorem C10_merge_frame_witness :
    ∃ m, lookupIP (update_suspicious_ips [("198.51.100.9", c1old)]
        [("198.51.100.9", c1new)]) "198.51.100.9" = some m ∧
      m.status_codes = [("401", 120)] ∧
      m.requests = [("GET /login", 120)] ∧
      m.first_seen = some 0 ∧
      m.last_seen = some 60 ∧
      m.user_agents = [] := by
  obtain ⟨m, hm, h1, h2, h3, h4, h5⟩ :=
    C10_merge_frame [("198.51.100.9", c1old)] [("198.51.100.9", c1new)]
      "198.51.100.9" c1old c1new (by decide) (by decide) (by decide)
  exact ⟨m, hm, by rw [h1]; rfl, by rw [h2]; rfl, by rw [h3]; rfl,
    by rw [h4]; rfl, by rw [h5]; rfl⟩

/-! ### The aggregation invariant (claim C2) -/

theorem sumVals_incr (l : List (String × Nat)) (k : String) :
    sumVals (incr l k) = sumVals l + 1 := by
  induction l with
  | nil => simp [incr, sumVals]
  | cons p rest ih =>
    obtain ⟨pk, pv⟩ := p
    by_cases hp : pk = k
    · simp [incr, sumVals, hp]; omega
    · simp only [incr, if_neg hp]
      simp only [sumVals, List.map_cons, List.sum_cons] at ih ⊢
      omega

/-- A record update keeps the invariant and definitely sets both bounds. -/
theorem updateRecord_WF (r : ActivityRecord) (e : LogEntry)
    (h : recordWF r) :
    recordWF (updateRecord r e) ∧
    ∃ f l, (updateRecord r e).first_seen = some f ∧
      (updateRecord r e).last_seen = some l ∧ f ≤ l := by
  obtain ⟨h1, h2, h3⟩ := h
  have hbounds : ∃ f l, (updateRecord r e).first_seen = some f ∧
      (updateRecord r e).last_seen = some l ∧ f ≤ l := by
    rcases h3 with ⟨hf, hl⟩ | ⟨f, l, hf, hl, hfl⟩
    · exact ⟨e.date, e.date, by simp [updateRecord, hf],
        by simp [updateRecord, hl], le_refl _⟩
    · refine ⟨if e.date < f then e.date else f,
        if l < e.date then e.date else l,
        by simp [updateRecord, hf], by simp [updateRecord, hl], ?_⟩
      split_ifs <;> omega
  refine ⟨⟨?_, ?_, ?_⟩, hbounds⟩
  · simp [updateRecord, sumVals_incr, h1]
  · simp [updateRecord, sumVals_incr, h2]
  · obtain ⟨f, l, hf, hl, hfl⟩ := hbounds
    exact Or.inr ⟨f, l, hf, hl, hfl⟩

/-- `emptyRecord` (the untouched `defaultdict` value) satisfies the
invariant. -/
theorem recordWF_empty : recordWF emptyRecord :=
  ⟨rfl, rfl, Or.inl ⟨rfl, rfl⟩⟩

/-- Every record the read loop stores satisfies the invariant, with both
bounds set. -/
theorem parseLines_WF (env : Env) (ii iw : Bool) (lines : List String) :
    ∀ (st : ParseState) (n : Nat),
      (∀ ip r, lookupIP st.activity ip = some r →
        recordWF r ∧ ∃ f l, r.first_seen = some f ∧ r.last_seen = some l ∧
          f ≤ l) →
      ∀ ip r, lookupIP (parseLines env ii iw st n lines).activity ip
          = some r →
        recordWF r ∧ ∃ f l, r.first_seen = some f ∧ r.last_seen = some l ∧
          f ≤ l := by
  induction lines with
  | nil => intro st n h; exact h
  | cons l rest ih =>
    intro st n h
    refine ih (stepLine env ii iw st n l) (n + 1) ?_
    intro ip r hr
    unfold stepLine at hr
    cases ho : processLine env ii iw l with
    | ok e =>
      rw [ho] at hr
      simp only at hr
      rcases lookupIP_upsert_cases _ _ _ _ _ hr with hcase | hcase
      · subst hcase
        cases hl : lookupIP st.activity e.ip with
        | some r0 =>
          rw [Option.getD_some]
          exact updateRecord_WF r0 e (h e.ip r0 hl).1
        | none =>
          rw [Option.getD_none]
          exact updateRecord_WF emptyRecord e recordWF_empty
      · exact h ip r hcase
    | emptySkip => rw [ho] at hr; exact h ip r hr
    | whitelistSkip => rw [ho] at hr; exact h ip r hr
    | internalSkip => rw [ho] at hr; exact h ip r hr
    | requestSkip => rw [ho] at hr; exact h ip r hr
    | failSkip f => rw [ho] at hr; exact h ip r hr

/-- **C2 counterexample.**  The invariant `count = Σ statusCodes` does not
survive a watch-mode merge: merging a self-consistent entry with itself sums
the counts but leaves the histogram untouched, so the merged entry has
count 4 against a histogram summing to 2. -/
theorem C2_counterexample :
    lookupIP (update_suspicious_ips [("203.0.113.9", c2rec)]
        [("203.0.113.9", c2rec)]) "203.0.113.9"
      = some (mergeEntry c2rec c2rec) ∧
    (mergeEntry c2rec c2rec).count = 4 ∧
    sumVals (mergeEntry c2rec c2rec).status_codes = 2 ∧
    (mergeEntry c2rec c2rec).count
      ≠ sumVals (mergeEntry c2rec c2rec).status_codes := by
  refine ⟨by decide, by decide, by decide, by decide⟩

/-- **C2 (amended).**  Within a batch, every stored ActivityRecord satisfies
`firstSeen ≤ lastSeen` and `count = Σ statusCodes = Σ requests` after any
sequence of ingested lines; watch-mode merges keep the time bounds unchanged
(so their ordering persists), but the count/histogram equalities are not
preserved by merges since the histograms are not combined. -/
theorem C2_amended_invariants (env : Env) (ii iw : Bool)
    (lines : List String) :
    (∀ ip r, lookupIP (aggregate env ii iw lines).activity ip = some r →
      (∃ f l, r.first_seen = some f ∧ r.last_seen = some l ∧ f ≤ l) ∧
      r.count = sumVals r.status_codes ∧ r.count = sumVals r.requests) ∧
    (∀ e d : ScoredRecord, (mergeEntry e d).first_seen = e.first_seen ∧
      (mergeEntry e d).last_seen = e.last_seen) := by
  constructor
  · intro ip r hr
    have := parseLines_WF env ii iw lines { activity := [], warnings := [] } 1
      (by intro ip' r' h'; simp [lookupIP] at h') ip r hr
    exact ⟨this.2, this.1.1, this.1.2.1⟩
  · intro e d
    exact ⟨by simp [mergeEntry], by simp [mergeEntry]⟩

/-- Witness for the amended C2 on a one-line batch. -/
theorem C2_amended_invariants_witness :
    (∃ f l, (some 0 : Option Int) = some f ∧ (some 0 : Option Int) = some l ∧
      f ≤ l) ∧
    (1 : Nat) = sumVals [("404", 1)] ∧ (1 : Nat) = sumVals [("GET /a", 1)] := by
  have h := (C2_amended_invariants envOK false false ["7.7.7.7"]).1
    "7.7.7.7"
    { count := 1, status_codes := [("404", 1)], requests := [("GET /a", 1)],
      first_seen := some 0, last_seen := some 0, user_agents := [] }
    (by decide)
  exact ⟨h.1, h.2.1, h.2.2⟩

/-! ### Tail-monitor offset behaviour (claims C3 and C9) -/

/-- Analyzing a batch touches only the session map, never the read offset. -/
theorem analyze_new_lines_last_position (env : Env) (cfg : WatchConfig)
    (st : WatchState) (lines : List String) :
    (analyze_new_lines env cfg st lines).last_position = st.last_position := by
  unfold analyze_new_lines
  dsimp only
  split <;> rfl

/-- **C3 counterexample.**  `LogFileHandler.__init__` sets the stored read
offset to 0, not to the watched file's current size: for a pre-existing file
of size 4 the initial offset is 0 ≠ 4, so the first modification event
re-reads the pre-existing content. -/
theorem C3_counterexample :
    initWatchState.last_position = 0 ∧
    ("abc\n".toList).length = 4 ∧
    initWatchState.last_position ≠ ("abc\n".toList).length := by
  refine ⟨rfl, by decide, by decide⟩

/-- **C3 (amended).**  The stored read offset starts at 0 (the
always-primed-at-zero behaviour): on the first modification event of a
non-empty file the monitor reads from offset 0, hands every line of the
pre-existing content to the analyzer, and advances the offset to the file
size. -/
theorem C3_amended_initial_offset (env : Env) (cfg : WatchConfig)
    (content : List Char) (h : 0 < content.length) :
    initWatchState.last_position = 0 ∧
    (process_changes env cfg initWatchState content).read_from = some 0 ∧
    (process_changes env cfg initWatchState content).lines_read
      = splitLines content ∧
    (process_changes env cfg initWatchState content).state.last_position
      = content.length := by
  have hpos : (if content.length < initWatchState.last_position then 0
      else initWatchState.last_position) = 0 := by
    simp [initWatchState]
  unfold process_changes
  dsimp only
  rw [hpos]
  rw [if_pos h]
  refine ⟨rfl, rfl, by rw [List.drop_zero], ?_⟩
  simp only
  split
  · rfl
  · rw [analyze_new_lines_last_position]

/-- Witness for the amended C3 on the two-byte file `ab`. -/
theorem C3_amended_initial_offset_witness :
    (0 : Nat) < ("ab".toList).length ∧
    initWatchState.last_position = 0 ∧
    (process_changes envOK cfgW initWatchState "ab".toList).read_from
      = some 0 ∧
    (process_changes envOK cfgW initWatchState "ab".toList).lines_read
      = splitLines "ab".toList ∧
    (process_changes envOK cfgW initWatchState "ab".toList).state.last_position
      = ("ab".toList).length :=
  ⟨by decide, C3_amended_initial_offset envOK cfgW "ab".toList (by decide)⟩

/-- **C9.**  When the current file size is smaller than the stored offset the
monitor flags rotation, and afterwards the stored offset equals the (new)
file size; if the rotated file is non-empty the same tick reads it from
offset 0, analyzing exactly its lines — nothing beyond the current content is
touched, and the tick is a total function (no crash). -/
theorem C9_rotation_reset (env : Env) (cfg : WatchConfig) (st : WatchState)
    (content : List Char) (h : content.length < st.last_position) :
    (process_changes env cfg st content).rotation_warning = true ∧
    (process_changes env cfg st content).state.last_position
      = content.length ∧
    (0 < content.length →
      (process_changes env cfg st content).read_from = some 0 ∧
      (process_changes env cfg st content).lines_read
        = splitLines content) := by
  have hpos : (if content.length < st.last_position then 0
      else st.last_position) = 0 := if_pos h
  have hrot : decide (content.length < st.last_position) = true :=
    decide_eq_true h
  unfold process_changes
  dsimp only
  rw [hpos, hrot]
  by_cases hz : 0 < content.length
  · rw [if_pos hz]
    refine ⟨rfl, ?_, fun _ => ⟨rfl, by rw [List.drop_zero]⟩⟩
    simp only
    split
    · rfl
    · rw [analyze_new_lines_last_position]
  · rw [if_neg hz]
    have : content.length = 0 := by omega
    exact ⟨rfl, this.symm, fun hc => absurd hc hz⟩

/-- Witness for C9: offset 5 on a file shrunk to two bytes. -/
theorem C9_rotation_reset_witness :
    ("ab".toList).length < 5 ∧
    (process_changes envOK cfgW
      { last_position := 5, all_suspicious := [] } "ab".toList).rotation_warning
      = true ∧
    (process_changes envOK cfgW
      { last_position := 5, all_suspicious := [] } "ab".toList).state.last_position
      = ("ab".toList).length ∧
    (process_changes envOK cfgW
      { last_position := 5, all_suspicious := [] } "ab".toList).read_from
      = some 0 := by
  have h := C9_rotation_reset envOK cfgW
    { last_position := 5, all_suspicious := [] } "ab".toList (by decide)
  exact ⟨by decide, h.1, h.2.1, (h.2.2 (by decide)).1⟩

/-! ### DDoS rule boundary (claim C7) -/

/-- **C7.**  The DDoS rule never fires when the time bounds coincide,
whatever the count; with distinct bounds it fires exactly when
`count / span_seconds * 60` strictly exceeds the configured threshold. -/
theorem C7_ddos_rate (d : ActivityRecord) :
    (d.first_seen = d.last_seen → detect_ddos d 1 = false) ∧
    (d.first_seen ≠ d.last_seen →
      (detect_ddos d 1 = true ↔
        (d.count : ℚ) / ((spanSeconds d : Int) : ℚ) * 60
          > (DDoS_request_threshold : ℚ))) := by
  constructor
  · intro h
    unfold detect_ddos
    rw [if_pos h]
  · intro h
    unfold detect_ddos
    rw [if_neg h]
    dsimp only
    rw [if_neg (by norm_num : ¬ ((1 : Nat) : ℚ) * 60 = 0)]
    exact ⟨of_decide_eq_true, decide_eq_true⟩

/-- Witness for C7: 1000 requests over a 60-second span give rate 1000/min,
which exceeds 500/min, so the rule fires. -/
theorem C7_ddos_rate_witness :
    c7fast.first_seen ≠ c7fast.last_seen ∧ detect_ddos c7fast 1 = true := by
  refine ⟨by decide, ?_⟩
  exact ((C7_ddos_rate c7fast).2 (by decide)).mpr
    (by norm_num [spanSeconds, c7fast, DDoS_request_threshold])

/-! ### The scorer mutates the record (claim C6) -/

/-- **C6 counterexample.**  Scoring is not modification-free and not
repeatable: on a record whose request matches the `1=1` pattern, the first
call appends a SQL_INJECTION finding (the returned findings differ from the
input) and scores 30, while scoring the updated record again scores 60. -/
theorem C6_counterexample :
    (calculate_threat_score c6sql (some [])).2 ≠ some [] ∧
    (calculate_threat_score c6sql (some [])).2
      = some [("SQL_INJECTION", "SQL pattern detected")] ∧
    (calculate_threat_score c6sql (some [])).1 = 30 ∧
    (calculate_threat_score c6sql
        (calculate_threat_score c6sql (some [])).2).1 = 60 := by
  refine ⟨by decide, by decide, by decide, by decide⟩

/-- **C6 (amended).**  The scorer is a deterministic function of the record
and findings it is given, but it appends a SQL_INJECTION or DDoS finding when
those rules fire; when neither rule fires, the findings are returned
unchanged and re-scoring the record yields the identical result. -/
theorem C6_amended_scorer_effect (d : ActivityRecord)
    (t : Option (List Finding))
    (hs : detect_sql_injection (d.requests.map Prod.fst) = false)
    (hd : detect_ddos d 1 = false) :
    (calculate_threat_score d t).2 = t ∧
    calculate_threat_score d ((calculate_threat_score d t).2)
      = calculate_threat_score d t := by
  have h2 : (calculate_threat_score d t).2 = t := by
    unfold calculate_threat_score
    simp [hs, hd]
  exact ⟨h2, by rw [h2]⟩

/-- Witness for the amended C6 on a record triggering neither rule. -/
theorem C6_amended_scorer_effect_witness :
    detect_sql_injection (c6plain.requests.map Prod.fst) = false ∧
    detect_ddos c6plain 1 = false ∧
    (calculate_threat_score c6plain (some [])).2 = some [] ∧
    calculate_threat_score c6plain
        ((calculate_threat_score c6plain (some [])).2)
      = calculate_threat_score c6plain (some []) := by
  have h := C6_amended_scorer_effect c6plain (some []) (by decide) (by decide)
  exact ⟨by decide, by decide, h.1, h.2⟩

/-! ### The additive clamped scoring model (claim C5) -/

/-- The score always equals the clamp at 100 of: the summed weights of the
findings it finally reports, plus the status-severity contribution. -/
theorem calculate_threat_score_eq (d : ActivityRecord) (ts : List Finding) :
    (calculate_threat_score d (some ts)).1
      = min ((((calculate_threat_score d (some ts)).2.getD []).map
          (fun t => score_weight t.1)).sum + statusSeveritySum d) 100 := by
  unfold calculate_threat_score
  dsimp only
  cases hs : detect_sql_injection (d.requests.map Prod.fst) <;>
    cases hd : detect_ddos d 1
  all_goals
    simp only [Bool.false_eq_true, if_false, if_true, Option.getD_some,
      List.map_append, List.sum_append, statusSeveritySum,
      List.map_cons, List.map_nil, List.sum_cons, List.sum_nil]
  all_goals
    (congr 1
     try simp only [show score_weight
       ("SQL_INJECTION", "SQL pattern detected").1 = 30 from rfl]
     try simp only [show score_weight
       ("DDoS", toString d.count ++ " req/min").1 = 40 from rfl]
     omega)

/-- The kinds `detect_specific_threats` can report: at most one
`BRUTE_FORCE` and then at most one `PORT_SCAN`. -/
theorem detect_specific_threats_kinds (d : ActivityRecord) :
    (detect_specific_threats d).map Prod.fst = [] ∨
    (detect_specific_threats d).map Prod.fst = ["BRUTE_FORCE"] ∨
    (detect_specific_threats d).map Prod.fst = ["PORT_SCAN"] ∨
    (detect_specific_threats d).map Prod.fst
      = ["BRUTE_FORCE", "PORT_SCAN"] := by
  unfold detect_specific_threats
  dsimp only
  split <;> split <;> simp

/-- After the classifier pass and the scorer's appends, no finding kind is
duplicated. -/
theorem scorer_kinds_nodup (d : ActivityRecord) :
    (((calculate_threat_score d
        (some (detect_specific_threats d))).2.getD []).map Prod.fst).Nodup := by
  unfold calculate_threat_score
  dsimp only
  rcases detect_specific_threats_kinds d with h | h | h | h <;>
    cases hs : detect_sql_injection (d.requests.map Prod.fst) <;>
      cases hd : detect_ddos d 1 <;>
        simp [h]

/-- With no duplicated kinds, the per-distinct-kind weight sum is the plain
per-finding weight sum. -/
theorem kindWeightSum_of_nodup (ts : List Finding)
    (h : (ts.map Prod.fst).Nodup) :
    kindWeightSum ts = ((ts.map Prod.fst).map score_weight).sum := by
  unfold kindWeightSum
  rw [List.dedup_eq_self.mpr h]

/-- **C5.**  For every aggregated record run through the classifier then the
scorer, the resulting score is the sum of each present finding kind's weight
plus the status-severity sum over the histogram, clamped at 100 (hence never
above 100). -/
theorem C5_score_formula (d : ActivityRecord) :
    (calculate_threat_score d (some (detect_specific_threats d))).1
      = min (kindWeightSum
            ((calculate_threat_score d
              (some (detect_specific_threats d))).2.getD [])
          + statusSeveritySum d) 100 ∧
    (calculate_threat_score d (some (detect_specific_threats d))).1 ≤ 100 := by
  have hA := calculate_threat_score_eq d (detect_specific_threats d)
  have hB := scorer_kinds_nodup d
  constructor
  · rw [hA, kindWeightSum_of_nodup _ hB, List.map_map]
    rfl
  · rw [hA]
    exact min_le_right _ _

/-! ### The window filter (claim C4) -/

theorem upsert_keys {α : Type} (l : List (String × α)) (k : String) (v : α) :
    (upsert l k v).map Prod.fst =
      if k ∈ l.map Prod.fst then l.map Prod.fst
      else l.map Prod.fst ++ [k] := by
  induction l with
  | nil => simp [upsert]
  | cons p rest ih =>
    obtain ⟨pk, pv⟩ := p
    by_cases hp : pk = k
    · simp [upsert, hp]
    · by_cases hm : k ∈ rest.map Prod.fst
      · simp [upsert, hp, hm, ih, Ne.symm hp]
      · simp [upsert, hp, hm, ih, Ne.symm hp]

theorem nodupKeys_upsert {α : Type} (l : List (String × α)) (k : String)
    (v : α) (h : (l.map Prod.fst).Nodup) :
    ((upsert l k v).map Prod.fst).Nodup := by
  rw [upsert_keys]
  by_cases hm : k ∈ l.map Prod.fst
  · rwa [if_pos hm]
  · rw [if_neg hm]
    simp [List.nodup_append, h, hm]

/-- The read loop never stores two entries for the same address. -/
theorem parseLines_nodupKeys (env : Env) (ii iw : Bool)
    (lines : List String) :
    ∀ (st : ParseState) (n : Nat),
      ((st.activity.map Prod.fst).Nodup) →
      (((parseLines env ii iw st n lines).activity.map Prod.fst).Nodup) := by
  induction lines with
  | nil => intro st n h; exact h
  | cons l rest ih =>
    intro st n h
    refine ih (stepLine env ii iw st n l) (n + 1) ?_
    unfold stepLine
    cases ho : processLine env ii iw l with
    | ok e => exact nodupKeys_upsert st.activity e.ip _ h
    | emptySkip => exact h
    | whitelistSkip => exact h
    | internalSkip => exact h
    | requestSkip => exact h
    | failSkip f => exact h

/-- One step of the detection phase, with its window condition spelled as
the proposition it decides. -/
theorem detectPhase_cons (pk : String) (pd : ActivityRecord)
    (rest : List (String × ActivityRecord)) (threshold : Nat) (win : ℚ) :
    detectPhase ((pk, pd) :: rest) threshold win =
      if ((spanSeconds pd : Int) : ℚ) ≤ win * 3600 ∧ pd.count > threshold
      then (pk, scoreRecord pd) :: detectPhase rest threshold win
      else detectPhase rest threshold win := by
  have hb : (decide (((spanSeconds pd : Int) : ℚ) ≤ win * 3600)
      && decide (pd.count > threshold)) = true
      ↔ (((spanSeconds pd : Int) : ℚ) ≤ win * 3600 ∧ pd.count > threshold) := by
    simp
  by_cases hc : ((spanSeconds pd : Int) : ℚ) ≤ win * 3600 ∧
      pd.count > threshold
  · rw [if_pos hc]
    simp only [detectPhase, List.filterMap_cons]
    rw [if_pos (hb.mpr hc)]
  · rw [if_neg hc]
    simp only [detectPhase, List.filterMap_cons]
    rw [if_neg (fun h => hc (hb.mp h))]

theorem lookupIP_detectPhase_none (l : List (String × ActivityRecord))
    (threshold : Nat) (win : ℚ) (ip : String)
    (h : lookupIP l ip = none) :
    lookupIP (detectPhase l threshold win) ip = none := by
  induction l with
  | nil => rfl
  | cons p rest ih =>
    obtain ⟨pk, pd⟩ := p
    simp only [lookupIP] at h
    rw [detectPhase_cons]
    by_cases hp : pk = ip
    · rw [if_pos hp] at h; cases h
    · rw [if_neg hp] at h
      by_cases hc : ((spanSeconds pd : Int) : ℚ) ≤ win * 3600 ∧
          pd.count > threshold
      · rw [if_pos hc]
        simp only [lookupIP, if_neg hp]
        exact ih h
      · rw [if_neg hc]
        exact ih h

/-- The detection phase keeps an address present in the activity map exactly
when its aggregated record meets the window condition, and then scores it. -/
theorem lookupIP_detectPhase_some (l : List (String × ActivityRecord))
    (threshold : Nat) (win : ℚ) (ip : String) (d : ActivityRecord)
    (hnd : (l.map Prod.fst).Nodup) (hl : lookupIP l ip = some d) :
    lookupIP (detectPhase l threshold win) ip =
      if ((spanSeconds d : Int) : ℚ) ≤ win * 3600 ∧ d.count > threshold
      then some (scoreRecord d) else none := by
  induction l with
  | nil => cases hl
  | cons p rest ih =>
    obtain ⟨pk, pd⟩ := p
    rw [List.map_cons, List.nodup_cons] at hnd
    obtain ⟨hpn, hrest⟩ := hnd
    simp only [lookupIP] at hl
    rw [detectPhase_cons]
    by_cases hp : pk = ip
    · rw [if_pos hp] at hl
      injection hl with hd
      subst hd
      have hnone : lookupIP rest ip = none := by
        rw [lookupIP_eq_none, ← hp]; exact hpn
      by_cases hc : ((spanSeconds pd : Int) : ℚ) ≤ win * 3600 ∧
          pd.count > threshold
      · rw [if_pos hc, if_pos hc]
        simp [lookupIP, hp]
      · rw [if_neg hc, if_neg hc]
        exact lookupIP_detectPhase_none rest threshold win ip hnone
    · rw [if_neg hp] at hl
      by_cases hc : ((spanSeconds pd : Int) : ℚ) ≤ win * 3600 ∧
          pd.count > threshold
      · rw [if_pos hc]
        simp only [lookupIP, if_neg hp]
        exact ih hrest hl
      · rw [if_neg hc]
        exact ih hrest hl

/-- **C4.**  A record appears in `parse_log_file`'s result exactly when its
span is at most the window (inclusive) and its count strictly exceeds the
threshold; in particular a count exactly at the threshold is excluded, and a
count of threshold + 1 with span exactly the window is included. -/
theorem C4_window_filter (env : Env) (ii iw : Bool) (lines : List String)
    (threshold : Nat) (win : ℚ) (ip : String) :
    ((∃ r, lookupIP (parse_log_file env threshold win ii iw lines).1 ip
        = some r) ↔
      (∃ d, lookupIP (aggregate env ii iw lines).activity ip = some d ∧
        ((spanSeconds d : Int) : ℚ) ≤ win * 3600 ∧ threshold < d.count)) ∧
    (∀ d, lookupIP (aggregate env ii iw lines).activity ip = some d →
      d.count = threshold →
      lookupIP (parse_log_file env threshold win ii iw lines).1 ip = none) ∧
    (∀ d, lookupIP (aggregate env ii iw lines).activity ip = some d →
      d.count = threshold + 1 →
      ((spanSeconds d : Int) : ℚ) = win * 3600 →
      ∃ r, lookupIP (parse_log_file env threshold win ii iw lines).1 ip
        = some r) := by
  have hnd : (((aggregate env ii iw lines).activity.map Prod.fst).Nodup) :=
    parseLines_nodupKeys env ii iw lines { activity := [], warnings := [] } 1
      (by simp)
  have hres : (parse_log_file env threshold win ii iw lines).1
      = detectPhase (aggregate env ii iw lines).activity threshold win := rfl
  have hkey : ∀ d, lookupIP (aggregate env ii iw lines).activity ip = some d →
      lookupIP (parse_log_file env threshold win ii iw lines).1 ip
        = if ((spanSeconds d : Int) : ℚ) ≤ win * 3600 ∧ d.count > threshold
          then some (scoreRecord d) else none := by
    intro d hl
    rw [hres]
    exact lookupIP_detectPhase_some _ threshold win ip d hnd hl
  refine ⟨?_, ?_, ?_⟩
  · constructor
    · rintro ⟨r, hr⟩
      cases hl : lookupIP (aggregate env ii iw lines).activity ip with
      | some d =>
        rw [hkey d hl] at hr
        by_cases hc : ((spanSeconds d : Int) : ℚ) ≤ win * 3600 ∧
            d.count > threshold
        · exact ⟨d, rfl, hc.1, hc.2⟩
        · rw [if_neg hc] at hr; cases hr
      | none =>
        rw [hres, lookupIP_detectPhase_none _ threshold win ip hl] at hr
        cases hr
    · rintro ⟨d, hl, hc1, hc2⟩
      rw [hkey d hl, if_pos ⟨hc1, hc2⟩]
      exact ⟨scoreRecord d, rfl⟩
  · intro d hl hcount
    rw [hkey d hl, if_neg ?_]
    rintro ⟨-, hand⟩
    omega
  · intro d hl hcount hspan
    rw [hkey d hl, if_pos ⟨le_of_eq hspan, by omega⟩]
    exact ⟨scoreRecord d, rfl⟩

/-- Witness for C4: two identical-instant requests from one address.  With
threshold 2 (count exactly at threshold) the address is excluded; with
threshold 1 (count = threshold + 1, span exactly the zero-hour window) it is
included. -/
theorem C4_window_filter_witness :
    lookupIP (parse_log_file envOK 2 0 false false
      ["7.7.7.7", "7.7.7.7"]).1 "7.7.7.7" = none ∧
    (∃ r, lookupIP (parse_log_file envOK 1 0 false false
      ["7.7.7.7", "7.7.7.7"]).1 "7.7.7.7" = some r) := by
  constructor
  · exact (C4_window_filter envOK false false ["7.7.7.7", "7.7.7.7"] 2 0
      "7.7.7.7").2.1
      { count := 2, status_codes := [("404", 2)], requests := [("GET /a", 2)],
        first_seen := some 0, last_seen := some 0, user_agents := [] }
      (by decide) rfl
  · exact (C4_window_filter envOK false false ["7.7.7.7", "7.7.7.7"] 1 0
      "7.7.7.7").2.2
      { count := 2, status_codes := [("404", 2)], requests := [("GET /a", 2)],
        first_seen := some 0, last_seen := some 0, user_agents := [] }
      (by decide) rfl (by norm_num [spanSeconds])

/-! ### Per-line filter order (claim C8) -/

set_option maxRecDepth 8192 in
/-- **C8 counterexample.**  Parse failure is not checked before the whitelist
filter: a line whose bracketed date cannot be extracted but whose address is
whitelisted is skipped silently by the whitelist filter (no warning, no
record); the very same line does produce the parse warning once whitelisting
is disabled, showing the whitelist filter runs first. -/
theorem C8_counterexample :
    aggregate envC8 false true ["203.0.113.7 oops"]
      = { activity := [], warnings := [] } ∧
    aggregate envC8 false false ["203.0.113.7 oops"]
      = { activity := [],
          warnings := [mkWarning 1 (errString ParseFail.noDate)
            "203.0.113.7 oops"] } := by
  refine ⟨by decide, by decide⟩

/-- **C8 (amended).**  The read loop's per-line skips, in the code's order:
(1) a whitelist match (with whitelisting enabled) skips silently, before any
date/status parsing is attempted; (2) otherwise an internal address (with
internal-exclusion enabled) skips silently; (3) only then do extraction
failures skip with a warning carrying the line number and the 50-character
head of the stripped line — except that a missing method+path match skips
silently.  Every skip leaves the activity map untouched, and the loop always
continues with the next line. -/
theorem C8_amended_filter_order (env : Env) (ii iw : Bool) (raw : String)
    (st : ParseState) (n : Nat) :
    (∀ ip, strip raw ≠ "" → (env.extract (strip raw)).ip_match = some ip →
      (iw && env.is_whitelisted ip) = true →
      processLine env ii iw raw = LineOutcome.whitelistSkip) ∧
    (∀ ip, strip raw ≠ "" → (env.extract (strip raw)).ip_match = some ip →
      (iw && env.is_whitelisted ip) = false →
      (ii && env.is_internal_ip ip) = true →
      processLine env ii iw raw = LineOutcome.internalSkip) ∧
    (∀ f, processLine env ii iw raw = LineOutcome.failSkip f →
      stepLine env ii iw st n raw
        = { st with warnings := st.warnings
            ++ [mkWarning n (errString f) (strip raw)] }) ∧
    ((∀ e, processLine env ii iw raw ≠ LineOutcome.ok e) →
      (stepLine env ii iw st n raw).activity = st.activity) ∧
    (∀ rest, parseLines env ii iw st n (raw :: rest)
      = parseLines env ii iw (stepLine env ii iw st n raw) (n + 1) rest) := by
  refine ⟨?_, ?_, ?_, ?_, fun rest => rfl⟩
  · intro ip hne hip hwl
    unfold processLine
    dsimp only
    rw [if_neg hne, hip]
    simp [hwl]
  · intro ip hne hip hwl hint
    unfold processLine
    dsimp only
    rw [if_neg hne, hip]
    simp [hwl, hint]
  · intro f hf
    unfold stepLine
    rw [hf]
  · intro hok
    unfold stepLine
    cases ho : processLine env ii iw raw with
    | ok e => exact absurd ho (hok e)
    | emptySkip => rfl
    | whitelistSkip => rfl
    | internalSkip => rfl
    | requestSkip => rfl
    | failSkip f => rfl

/-- Witness for the amended C8: the whitelisted-and-malformed line is skipped
by the whitelist filter with no state change, while with whitelisting off the
same line warns. -/
theorem C8_amended_filter_order_witness :
    processLine envC8 false true "203.0.113.7 oops"
      = LineOutcome.whitelistSkip ∧
    (stepLine envC8 false true { activity := [], warnings := [] } 1
      "203.0.113.7 oops").activity = [] ∧
    stepLine envC8 false false { activity := [], warnings := [] } 1
        "203.0.113.7 oops"
      = { activity := [],
          warnings := [mkWarning 1 (errString ParseFail.noDate)
            (strip "203.0.113.7 oops")] } := by
  have h1 := C8_amended_filter_order envC8 false true "203.0.113.7 oops"
    { activity := [], warnings := [] } 1
  have h2 := C8_amended_filter_order envC8 false false "203.0.113.7 oops"
    { activity := [], warnings := [] } 1
  refine ⟨h1.1 "203.0.113.7" (by decide) (by decide) (by decide), ?_, ?_⟩
  · refine h1.2.2.2.1 ?_
    intro e h
    rw [h1.1 "203.0.113.7" (by decide) (by decide) (by decide)] at h
    cases h
  · have := h2.2.2.1 ParseFail.noDate (by decide)
    simpa using this

end SOC
